import Mathlib

/-!
Shallow embedding of the TEFAS fund scraper (`fetch_tefas_data.py`).

The script is a linear pipeline: session bootstrap, fund-directory fetch,
a per-fund price resolver merging into an accumulating map, a snapshot
writer (`save_data`) and two optional external-store pushes
(`push_to_firebase`, `push_to_supabase`).  Network responses are embedded
as explicit parameters (an `Option` value models a request whose body
either parsed or raised), and Python dictionaries as association lists
with insert-or-update semantics.  Numeric JSON values are embedded as
rationals; `None` is `Option.none`.
-/

namespace Tefas

/-- Python truthiness of an optional string (environment variables,
credential blobs): `None` and the empty string are falsy. -/
def pyTruthyStr : Option String → Bool
  | none => false
  | some s => s != ""

/-- Python `dict` assignment `d[k] = v`: update in place when the key is
present, append otherwise (insertion order preserved). -/
def dictInsert {α : Type} : List (String × α) → String → α → List (String × α)
  | [], k, v => [(k, v)]
  | (k0, v0) :: rest, k, v =>
    if k0 = k then (k, v) :: rest else (k0, v0) :: dictInsert rest k v

/-- Python `dict` lookup `d.get(k)`: `None` when the key is absent. -/
def dictGet {α : Type} : List (String × α) → String → Option α
  | [], _ => none
  | (k0, v0) :: rest, k => if k0 = k then some v0 else dictGet rest k

/-- One record of the accumulating price map, as written at
`fetch_tefas_data.py:346-354`.  `dailyChange` and `daily_change` are the
same value in the source, so a single field suffices. -/
structure FundRecord where
  code : String
  price : Rat
  date : Option String
  dailyChange : Rat
  name : String
  fetchedAt : String
deriving Repr, DecidableEq

/-- The accumulating `price_data_map`. -/
abbrev PriceMap := List (String × FundRecord)

/-- The per-code value of `fund_daily_returns` (directory fetch output). -/
structure DailyInfo where
  daily_change : Rat
  name : String
deriving Repr, DecidableEq

/-- One row of the primary `BindHistoryInfo` response's `data` list; the
fields are read with `.get`, so each may be absent. -/
structure PrimaryRecord where
  FIYAT : Option Rat
  TARIH : Option String
deriving Repr, DecidableEq

/-- A parsed primary response body: the `data` key may be absent. -/
structure PrimaryResp where
  data : Option (List PrimaryRecord)
deriving Repr, DecidableEq

/-- One row of the fallback `GetAllFundAnalyzeData` response's `fundInfo`. -/
structure InfoRecord where
  SONFIYAT : Option Rat
deriving Repr, DecidableEq

/-- A parsed fallback response body: the `fundInfo` key may be absent. -/
structure AnalyzeResp where
  fundInfo : Option (List InfoRecord)
deriving Repr, DecidableEq

/-- The fallback half of `get_price` (`fetch_tefas_data.py:275-305`):
take the first `fundInfo` record's `SONFIYAT` and stamp the current
wall-clock time as the date; on any failure return `(code, None, None)`.
`fallback = none` models the request or JSON parse raising. -/
def get_price_fallback (now : String) (fallback : Option AnalyzeResp)
    (code : String) : String × Option Rat × Option String :=
  match fallback with
  | some resp =>
    match resp.fundInfo with
    | some (info :: _) => (code, info.SONFIYAT, some now)
    | _ => (code, none, none)
  | none => (code, none, none)

/-- Embeds `get_price` (`fetch_tefas_data.py:244-305`): primary history lookup,
taking the first `data` row's `FIYAT`/`TARIH`; any exception or a falsy
`d.get('data')` (absent key or empty list) falls through to the fallback.
The function is total: no input makes it raise. -/
def get_price (now : String) (primary : Option PrimaryResp)
    (fallback : Option AnalyzeResp) (code : String) :
    String × Option Rat × Option String :=
  match primary with
  | some resp =>
    match resp.data with
    | some (latest :: _) => (code, latest.FIYAT, latest.TARIH)
    | _ => get_price_fallback now fallback code
  | none => get_price_fallback now fallback code

/-- The body of the resolver loop guarded by `if price:`
(`fetch_tefas_data.py:339-355`): a falsy price (`None`, `0`, `0.0`)
skips the fund; otherwise the record is built from the directory's
`fund_daily_returns` entry (empty dict when the code is absent) and
assigned into the map. -/
def mergeStep (now : String) (returns : String → Option DailyInfo)
    (m : PriceMap) (code : String) (price : Option Rat)
    (date : Option String) : PriceMap :=
  match price with
  | none => m
  | some p =>
    if p = 0 then m
    else
      match returns code with
      | some info =>
        dictInsert m code
          { code := code, price := p, date := date,
            dailyChange := info.daily_change, name := info.name,
            fetchedAt := now }
      | none =>
        dictInsert m code
          { code := code, price := p, date := date,
            dailyChange := 0, name := "", fetchedAt := now }

/-- The persisted snapshot shape (`fetch_tefas_data.py:321-325`). -/
structure Snapshot where
  lastUpdated : String
  count : Nat
  data : PriceMap
deriving Repr, DecidableEq

/-- Embeds `save_data` (`fetch_tefas_data.py:317-330`): an empty map returns
`None` without touching the file; otherwise the snapshot that is both
written to disk and returned. -/
def save_data (now : String) (m : PriceMap) : Option Snapshot :=
  if m.isEmpty then none
  else some { lastUpdated := now, count := m.length, data := m }

/-!  Workday calendar (`is_workday`, `get_prev_workday`,
`fetch_tefas_data.py:117-139`).  A Python `datetime` is embedded through
the observables the code reads: year, month, day and `weekday()`
(0 = Monday … 6 = Sunday); stepping one day back rotates the weekday and
follows the Gregorian month lengths. -/

/-- A calendar date as observed by the script. -/
structure Date where
  year : Int
  month : Nat
  day : Nat
  weekday : Nat
deriving Repr, DecidableEq

/-- Gregorian leap-year rule, as implemented by Python's `datetime`. -/
def isLeap (y : Int) : Bool :=
  (y % 4 == 0 && y % 100 != 0) || (y % 400 == 0)

/-- Number of days of month `m` of year `y`. -/
def daysInMonth (y : Int) (m : Nat) : Nat :=
  if m = 2 then (if isLeap y then 29 else 28)
  else if m = 4 ∨ m = 6 ∨ m = 9 ∨ m = 11 then 30
  else 31

/-- The dates that a Python `datetime` can actually hold. -/
def ValidDate (d : Date) : Prop :=
  1 ≤ d.month ∧ d.month ≤ 12 ∧ 1 ≤ d.day ∧
    d.day ≤ daysInMonth d.year d.month ∧ d.weekday < 7

instance (d : Date) : Decidable (ValidDate d) := by
  unfold ValidDate; infer_instance

/-- Computes `d - timedelta(days=1)`. -/
def predDate (d : Date) : Date :=
  if 1 < d.day then
    { year := d.year, month := d.month, day := d.day - 1,
      weekday := (d.weekday + 6) % 7 }
  else if 1 < d.month then
    { year := d.year, month := d.month - 1,
      day := daysInMonth d.year (d.month - 1),
      weekday := (d.weekday + 6) % 7 }
  else
    { year := d.year - 1, month := 12, day := 31,
      weekday := (d.weekday + 6) % 7 }

/-- Iterates `predDate`. -/
def predIter : Nat → Date → Date
  | 0, d => d
  | n + 1, d => predIter n (predDate d)

/-- The fixed Turkish holiday list of `is_workday`. -/
def holidays : List (Nat × Nat) :=
  [(1, 1), (4, 23), (5, 1), (5, 19), (7, 15), (8, 30), (10, 29)]

/-- Embeds `is_workday` (`fetch_tefas_data.py:117-133`). -/
def is_workday (d : Date) : Bool :=
  if d.weekday ≥ 5 then false
  else if (d.month, d.day) ∈ holidays then false
  else true

/-- The `while not is_workday(d)` loop of `get_prev_workday`, compiled
with an explicit step bound; `prev_workday_found` below proves the loop
always exits within the bound, so the bounded and unbounded loops agree. -/
def prevWorkdayAux : Nat → Date → Date
  | 0, d => d
  | n + 1, d => if is_workday d then d else prevWorkdayAux n (predDate d)

/-- Embeds `get_prev_workday` (`fetch_tefas_data.py:135-139`): step back one day,
then keep stepping while the day is not a workday. -/
def get_prev_workday (d : Date) : Date := prevWorkdayAux 4 (predDate d)

/-- Strict calendar order on dates (year, then month, then day). -/
def dateLt (a b : Date) : Prop :=
  a.year < b.year ∨
    (a.year = b.year ∧
      (a.month < b.month ∨ (a.month = b.month ∧ a.day < b.day)))

/-!  External-store pushes. -/

/-- Observable outcome of `push_to_firebase` (`fetch_tefas_data.py:6-39`).
Every path of the source function is covered by a handler, so the
function is total: it never propagates an exception to its caller. -/
inductive FirebaseOutcome where
  | importErrorLogged
  | skippedNoCreds
  | pushed
  | errorLogged
deriving Repr, DecidableEq

/-- Environment and fault model of `push_to_firebase`: is the
`firebase_admin` module importable, is `FIREBASE_CREDENTIALS` set, and
does any of the credential-parsing / client / write steps raise. -/
structure FirebaseEnv where
  importOk : Bool
  creds : Option String
  opRaises : Bool
deriving Repr, DecidableEq

/-- Embeds `push_to_firebase` (`fetch_tefas_data.py:6-39`): the import runs
first inside the `try`; absent or empty credentials log a skip message
and return; any other exception is caught and logged. -/
def push_to_firebase (env : FirebaseEnv) : FirebaseOutcome :=
  if !env.importOk then .importErrorLogged
  else if !pyTruthyStr env.creds then .skippedNoCreds
  else if env.opRaises then .errorLogged
  else .pushed

/-- One row sent to the relational store (`fetch_tefas_data.py:56-62`). -/
structure SupaRow where
  code : String
  price : Rat
  date : String
  daily_change : Rat
  name : String
deriving Repr, DecidableEq

/-- The row list built from the snapshot's `data` map. -/
def buildRows (m : PriceMap) : List SupaRow :=
  m.map fun cr =>
    { code := cr.1, price := cr.2.price, date := cr.2.date.getD "",
      daily_change := cr.2.dailyChange, name := cr.2.name }

/-- Python `range(start, stop, step)` for a positive step. -/
def pyRange (stop step start : Nat) : List Nat :=
  if _h : 0 < step ∧ start < stop then start :: pyRange stop step (start + step)
  else []
termination_by stop - start
decreasing_by omega

/-- The slices `records[i:i+B]` taken by the upload loop
(`fetch_tefas_data.py:74-75`), in loop order. -/
def sliceBatches {α : Type} (records : List α) (B : Nat) : List (List α) :=
  (pyRange records.length B 0).map fun i => (records.drop i).take B

/-- One batch POST as observed from outside: the slice start, the batch
size, the HTTP status the store answered, and whether the loop counted
it as a success (`status in [200, 201]`). -/
structure BatchAttempt where
  start : Nat
  size : Nat
  status : Nat
  ok : Bool
deriving Repr, DecidableEq

/-- Observable outcome of `push_to_supabase`. -/
inductive SupabaseOutcome where
  | skippedNoCreds
  | ran (trace : List BatchAttempt)
deriving Repr, DecidableEq

/-- Embeds `push_to_supabase` (`fetch_tefas_data.py:41-93`): skip when either
credential is absent or empty; otherwise POST every 500-row slice in
order, recording each response's status.  A non-2xx status is only
logged, so the trace always covers every slice.  (`respond i` is the
status the store returns to the batch starting at index `i`.) -/
def push_to_supabase (url key : Option String) (respond : Nat → Nat)
    (snap : Snapshot) : SupabaseOutcome :=
  if !pyTruthyStr url || !pyTruthyStr key then .skippedNoCreds
  else
    let records := buildRows snap.data
    .ran ((pyRange records.length 500 0).map fun i =>
      let batch := (records.drop i).take 500
      let st := respond i
      { start := i, size := batch.length, status := st,
        ok := st = 200 || st = 201 })

/-!  The run orchestrator `fetch_all_funds` (`fetch_tefas_data.py:95-385`). -/

/-- One item of the directory response's `data` list; `GETIRIORANI` and
`FONUNVAN` are read with `.get` and so may be absent. -/
structure DirEntry where
  FONKODU : String
  GETIRIORANI : Option Rat
  FONUNVAN : Option String
deriving Repr, DecidableEq

/-- Directory-fetch result: `response.json()` raised, or a parsed body
whose `data` key may be absent (and whose list may be empty). -/
inductive DirResult where
  | decodeError
  | parsed (data : Option (List DirEntry))
deriving Repr, DecidableEq

/-- Builds `fund_daily_returns` as at `fetch_tefas_data.py:203-212`. -/
def buildReturns (entries : List DirEntry) : List (String × DailyInfo) :=
  entries.foldl
    (fun acc f =>
      dictInsert acc f.FONKODU
        { daily_change := f.GETIRIORANI.getD 0, name := f.FONUNVAN.getD "" })
    []

/-- State threaded through the resolver loop: the accumulating map, the
processed-fund counter, and the checkpoint snapshots written so far. -/
structure ResolverState where
  map : PriceMap
  count : Nat
  writes : List Snapshot
deriving Repr, DecidableEq

/-- One iteration of the resolver loop (`fetch_tefas_data.py:335-366`):
call `get_price`, merge a truthy price into the map, and every 100 funds
checkpoint the map with `save_data` (which writes only when non-empty). -/
def resolverStep (now : String) (returns : String → Option DailyInfo)
    (prim : String → Option PrimaryResp) (fb : String → Option AnalyzeResp)
    (s : ResolverState) (code : String) : ResolverState :=
  let count := s.count + 1
  let r := get_price now (prim code) (fb code) code
  let m := mergeStep now returns s.map code r.2.1 r.2.2
  let writes :=
    if count % 100 = 0 then
      match save_data now m with
      | some snap => s.writes ++ [snap]
      | none => s.writes
    else s.writes
  { map := m, count := count, writes := writes }

/-- The whole resolver loop over the fund list, started from the map
seeded from the previous snapshot file. -/
def runResolver (now : String) (returns : String → Option DailyInfo)
    (prim : String → Option PrimaryResp) (fb : String → Option AnalyzeResp)
    (init : PriceMap) (codes : List String) : ResolverState :=
  codes.foldl (resolverStep now returns prim fb)
    { map := init, count := 0, writes := [] }

/-- Externally visible effects of one run: every snapshot written to the
local file (in order), whether and how each store push ran (`none` =
never invoked), and the Python return value (`none` = the bare `return`
of an abort path). -/
structure RunEffects where
  fileWrites : List Snapshot
  firebase : Option FirebaseOutcome
  supabase : Option SupabaseOutcome
  result : Option Bool
deriving Repr, DecidableEq

/-- Effects of a run that aborts before the resolver loop. -/
def noRunEffects : RunEffects :=
  { fileWrites := [], firebase := none, supabase := none, result := none }

/-- The `finally` block and return paths (`fetch_tefas_data.py:368-379`):
a final `save_data`; when it returns a snapshot, push to Firebase, then
to Supabase, then `return True`; otherwise fall through to
`return False`. -/
def finalizeRun (now : String) (final : ResolverState) (fbEnv : FirebaseEnv)
    (sbUrl sbKey : Option String) (sbRespond : Nat → Nat) : RunEffects :=
  match save_data now final.map with
  | some snap =>
    { fileWrites := final.writes ++ [snap],
      firebase := some (push_to_firebase fbEnv),
      supabase := some (push_to_supabase sbUrl sbKey sbRespond snap),
      result := some true }
  | none =>
    { fileWrites := final.writes, firebase := none, supabase := none,
      result := some false }

/-- Embeds `fetch_all_funds` (`fetch_tefas_data.py:95-385`).  `warmupOk` models
the warm-up GET; `dir` the directory fetch; `prim`/`fb` the per-code
price endpoints; `oldFile` the parsed previous snapshot (`none` when the
file is absent or unreadable, leaving the seed map empty). -/
def fetch_all_funds (now : String) (warmupOk : Bool) (dir : DirResult)
    (prim : String → Option PrimaryResp) (fb : String → Option AnalyzeResp)
    (oldFile : Option PriceMap) (fbEnv : FirebaseEnv)
    (sbUrl sbKey : Option String) (sbRespond : Nat → Nat) : RunEffects :=
  if !warmupOk then noRunEffects
  else
    match dir with
    | .decodeError => noRunEffects
    | .parsed none => noRunEffects
    | .parsed (some []) => noRunEffects
    | .parsed (some (e :: es)) =>
      let fund_list := (e :: es).map DirEntry.FONKODU
      let returns := dictGet (buildReturns (e :: es))
      let final := runResolver now returns prim fb (oldFile.getD []) fund_list
      finalizeRun now final fbEnv sbUrl sbKey sbRespond

/-- Whether the primary history attempt of `get_price` yields nothing:
the request/parse raised, or `d.get('data')` is falsy (key absent or
empty list), which is exactly when the source falls through. -/
def primaryFailed : Option PrimaryResp → Bool
  | none => true
  | some r =>
    match r.data with
    | some (_ :: _) => false
    | _ => true

/-- Whether the fallback analyze attempt of `get_price` yields nothing:
the request/parse raised, or `d.get('fundInfo')` is absent or empty. -/
def fallbackFailed : Option AnalyzeResp → Bool
  | none => true
  | some r =>
    match r.fundInfo with
    | some (_ :: _) => false
    | _ => true

/-!  Dictionary lemmas. -/

theorem dictGet_dictInsert_self {α : Type} (m : List (String × α))
    (k : String) (v : α) : dictGet (dictInsert m k v) k = some v := by
  induction m with
  | nil => simp [dictInsert, dictGet]
  | cons kv rest ih =>
    obtain ⟨k0, v0⟩ := kv
    by_cases h : k0 = k
    · simp [dictInsert, dictGet, h]
    · simp [dictInsert, dictGet, h, ih]

theorem dictGet_dictInsert_ne {α : Type} (m : List (String × α))
    (k c : String) (v : α) (h : c ≠ k) :
    dictGet (dictInsert m k v) c = dictGet m c := by
  have hkc : ¬k = c := fun he => h he.symm
  induction m with
  | nil => simp [dictInsert, dictGet, hkc]
  | cons kv rest ih =>
    obtain ⟨k0, v0⟩ := kv
    by_cases h0 : k0 = k
    · subst h0
      simp [dictInsert, dictGet, hkc]
    · by_cases hc : k0 = c
      · simp [dictInsert, dictGet, h0, hc, hkc, h]
      · simp [dictInsert, dictGet, h0, hc, ih]

theorem dictInsert_ne_nil {α : Type} (m : List (String × α))
    (k : String) (v : α) : dictInsert m k v ≠ [] := by
  cases m with
  | nil => simp [dictInsert]
  | cons kv rest =>
    obtain ⟨k0, v0⟩ := kv
    by_cases h : k0 = k <;> simp [dictInsert, h]

theorem dictGet_isSome_dictInsert {α : Type} (m : List (String × α))
    (k c : String) (v : α) (h : (dictGet m c).isSome = true) :
    (dictGet (dictInsert m k v) c).isSome = true := by
  by_cases hc : c = k
  · subst hc; rw [dictGet_dictInsert_self]; rfl
  · rw [dictGet_dictInsert_ne m k c v hc]; exact h

/-!  Lemmas about the merge step and the resolver loop. -/

theorem mergeStep_none (now : String) (returns : String → Option DailyInfo)
    (m : PriceMap) (code : String) (date : Option String) :
    mergeStep now returns m code none date = m := rfl

theorem mergeStep_zero (now : String) (returns : String → Option DailyInfo)
    (m : PriceMap) (code : String) (date : Option String) :
    mergeStep now returns m code (some 0) date = m := by
  simp [mergeStep]

theorem mergeStep_cases (now : String) (returns : String → Option DailyInfo)
    (m : PriceMap) (code : String) (price : Option Rat) (date : Option String) :
    mergeStep now returns m code price date = m ∨
      ∃ r : FundRecord, r.code = code ∧
        mergeStep now returns m code price date = dictInsert m code r := by
  cases price with
  | none => exact Or.inl rfl
  | some p =>
    by_cases hp : p = 0
    · exact Or.inl (by simp [mergeStep, hp])
    · right
      cases hr : returns code with
      | none =>
        exact ⟨⟨code, p, date, 0, "", now⟩, rfl, by simp [mergeStep, hp, hr]⟩
      | some info =>
        exact ⟨⟨code, p, date, info.daily_change, info.name, now⟩, rfl,
          by simp [mergeStep, hp, hr]⟩

theorem mergeStep_eq_nil (now : String) (returns : String → Option DailyInfo)
    (m : PriceMap) (code : String) (price : Option Rat) (date : Option String)
    (h : mergeStep now returns m code price date = []) : m = [] := by
  rcases mergeStep_cases now returns m code price date with hm | ⟨r, _, hm⟩
  · rw [hm] at h; exact h
  · rw [hm] at h; exact absurd h (dictInsert_ne_nil m code r)

theorem resolverStep_map (now : String) (returns : String → Option DailyInfo)
    (prim : String → Option PrimaryResp) (fb : String → Option AnalyzeResp)
    (s : ResolverState) (code : String) :
    (resolverStep now returns prim fb s code).map =
      mergeStep now returns s.map code
        (get_price now (prim code) (fb code) code).2.1
        (get_price now (prim code) (fb code) code).2.2 := rfl

theorem runFold_isSome (now : String) (returns : String → Option DailyInfo)
    (prim : String → Option PrimaryResp) (fb : String → Option AnalyzeResp)
    (codes : List String) :
    ∀ (s : ResolverState) (K : String), (dictGet s.map K).isSome = true →
      (dictGet (codes.foldl (resolverStep now returns prim fb) s).map K).isSome
        = true := by
  induction codes with
  | nil => intro s K h; exact h
  | cons c cs ih =>
    intro s K h
    simp only [List.foldl_cons]
    apply ih
    rcases mergeStep_cases now returns s.map c
        (get_price now (prim c) (fb c) c).2.1
        (get_price now (prim c) (fb c) c).2.2 with hm | ⟨r, _, hm⟩
    · rw [resolverStep_map, hm]; exact h
    · rw [resolverStep_map, hm]
      exact dictGet_isSome_dictInsert s.map c K r h

theorem runFold_skip (now : String) (returns : String → Option DailyInfo)
    (prim : String → Option PrimaryResp) (fb : String → Option AnalyzeResp)
    (C : String) (hC : (get_price now (prim C) (fb C) C).2.1 = none)
    (codes : List String) :
    ∀ s : ResolverState,
      dictGet (codes.foldl (resolverStep now returns prim fb) s).map C =
        dictGet s.map C := by
  induction codes with
  | nil => intro s; rfl
  | cons c cs ih =>
    intro s
    simp only [List.foldl_cons]
    rw [ih]
    by_cases hcC : c = C
    · subst hcC
      rw [resolverStep_map, hC, mergeStep_none]
    · rcases mergeStep_cases now returns s.map c
          (get_price now (prim c) (fb c) c).2.1
          (get_price now (prim c) (fb c) c).2.2 with hm | ⟨r, _, hm⟩
      · rw [resolverStep_map, hm]
      · rw [resolverStep_map, hm,
          dictGet_dictInsert_ne s.map c C r (Ne.symm hcC)]

theorem runFold_code (now : String) (returns : String → Option DailyInfo)
    (prim : String → Option PrimaryResp) (fb : String → Option AnalyzeResp)
    (codes : List String) :
    ∀ (s : ResolverState) (c : String) (r : FundRecord),
      dictGet (codes.foldl (resolverStep now returns prim fb) s).map c = some r →
      dictGet s.map c = some r ∨ r.code = c := by
  induction codes with
  | nil => intro s c r h; exact Or.inl h
  | cons k ks ih =>
    intro s c r h
    simp only [List.foldl_cons] at h
    rcases ih _ c r h with h1 | h1
    · rw [resolverStep_map] at h1
      rcases mergeStep_cases now returns s.map k
          (get_price now (prim k) (fb k) k).2.1
          (get_price now (prim k) (fb k) k).2.2 with hm | ⟨rec, hrc, hm⟩
      · rw [hm] at h1; exact Or.inl h1
      · rw [hm] at h1
        by_cases hck : c = k
        · subst hck
          rw [dictGet_dictInsert_self] at h1
          right
          rw [← hrc]
          injection h1 with h1
          rw [h1]
        · rw [dictGet_dictInsert_ne s.map k c rec hck] at h1
          exact Or.inl h1
    · exact Or.inr h1

theorem resolverStep_writes_nil (now : String)
    (returns : String → Option DailyInfo) (prim : String → Option PrimaryResp)
    (fb : String → Option AnalyzeResp) (s : ResolverState) (c : String)
    (h : (resolverStep now returns prim fb s c).map = []) :
    (resolverStep now returns prim fb s c).writes = s.writes := by
  have hm : mergeStep now returns s.map c
      (get_price now (prim c) (fb c) c).2.1
      (get_price now (prim c) (fb c) c).2.2 = [] := h
  simp [resolverStep, hm, save_data]

theorem runFold_nil_writes (now : String)
    (returns : String → Option DailyInfo) (prim : String → Option PrimaryResp)
    (fb : String → Option AnalyzeResp) (codes : List String) :
    ∀ s : ResolverState,
      (codes.foldl (resolverStep now returns prim fb) s).map = [] →
      s.map = [] ∧
        (codes.foldl (resolverStep now returns prim fb) s).writes = s.writes := by
  induction codes with
  | nil => intro s h; exact ⟨h, rfl⟩
  | cons c cs ih =>
    intro s h
    simp only [List.foldl_cons] at h ⊢
    obtain ⟨h1, h2⟩ := ih _ h
    have hm : s.map = [] :=
      mergeStep_eq_nil now returns s.map c
        (get_price now (prim c) (fb c) c).2.1
        (get_price now (prim c) (fb c) c).2.2 h1
    refine ⟨hm, ?_⟩
    rw [h2, resolverStep_writes_nil now returns prim fb s c h1]

/-!  Lemmas about the two halves of `get_price`. -/

theorem get_price_of_primaryFailed (now : String) (primary : Option PrimaryResp)
    (fallback : Option AnalyzeResp) (code : String)
    (hp : primaryFailed primary = true) :
    get_price now primary fallback code = get_price_fallback now fallback code := by
  cases primary with
  | none => rfl
  | some r =>
    cases hd : r.data with
    | none => simp [get_price, hd]
    | some l =>
      cases l with
      | nil => simp [get_price, hd]
      | cons x xs => simp [primaryFailed, hd] at hp

theorem get_price_fallback_of_failed (now : String)
    (fallback : Option AnalyzeResp) (code : String)
    (hf : fallbackFailed fallback = true) :
    get_price_fallback now fallback code = (code, none, none) := by
  cases fallback with
  | none => rfl
  | some r =>
    cases hd : r.fundInfo with
    | none => simp [get_price_fallback, hd]
    | some l =>
      cases l with
      | nil => simp [get_price_fallback, hd]
      | cons x xs => simp [fallbackFailed, hd] at hf

/-!  Lemmas about the batch-splitting range. -/

theorem pyRange_eq_nil (stop step start : Nat) (h : stop ≤ start ∨ step = 0) :
    pyRange stop step start = [] := by
  rw [pyRange, dif_neg]
  omega

theorem pyRange_eq_cons (stop step start : Nat) (hs : 0 < step)
    (h : start < stop) :
    pyRange stop step start = start :: pyRange stop step (start + step) := by
  rw [pyRange, dif_pos ⟨hs, h⟩]

theorem pyRange_shift (step stop s : Nat) (hstep : 0 < step) :
    pyRange stop step (s + step) =
      (pyRange (stop - step) step s).map (fun x => x + step) := by
  by_cases h : s + step < stop
  · have h1 : s < stop - step := by omega
    rw [pyRange_eq_cons stop step (s + step) hstep h,
      pyRange_eq_cons (stop - step) step s hstep h1, List.map_cons,
      pyRange_shift step stop (s + step) hstep]
  · rw [pyRange_eq_nil stop step (s + step) (Or.inl (by omega)),
      pyRange_eq_nil (stop - step) step s (Or.inl (by omega))]
    rfl
termination_by stop - s
decreasing_by omega

theorem pyRange_length (step stop s : Nat) (hstep : 0 < step) :
    (pyRange stop step s).length = (stop - s + step - 1) / step := by
  by_cases h : s < stop
  · rw [pyRange_eq_cons stop step s hstep h, List.length_cons,
      pyRange_length step stop (s + step) hstep]
    by_cases hts : step ≤ stop - s
    · have e1 : stop - (s + step) + step - 1 = stop - s - 1 := by omega
      have e2 : stop - s + step - 1 = (stop - s - 1) + step := by omega
      rw [e1, e2, Nat.add_div_right _ hstep]
    · have e1 : stop - (s + step) + step - 1 = step - 1 := by omega
      have e2 : stop - s + step - 1 = (stop - s - 1) + step := by omega
      rw [e1, e2, Nat.add_div_right _ hstep,
        Nat.div_eq_of_lt (show step - 1 < step by omega),
        Nat.div_eq_of_lt (show stop - s - 1 < step by omega)]
  · rw [pyRange_eq_nil stop step s (Or.inl (by omega)), List.length_nil]
    have e : stop - s = 0 := by omega
    rw [e]
    exact (Nat.div_eq_of_lt (by omega)).symm
termination_by stop - s
decreasing_by omega

theorem sliceBatches_length {α : Type} (l : List α) (B : Nat) (hB : 0 < B) :
    (sliceBatches l B).length = (l.length + B - 1) / B := by
  unfold sliceBatches
  rw [List.length_map, pyRange_length B l.length 0 hB, Nat.sub_zero]

theorem sliceBatches_flatten {α : Type} (B : Nat) (hB : 0 < B) (l : List α) :
    (sliceBatches l B).flatten = l := by
  cases l with
  | nil => simp [sliceBatches, pyRange_eq_nil 0 B 0 (Or.inl (le_refl 0))]
  | cons x xs =>
    unfold sliceBatches
    have hlen : 0 < (x :: xs).length := by simp
    rw [pyRange_eq_cons (x :: xs).length B 0 hB hlen, List.map_cons,
      pyRange_shift B (x :: xs).length 0 hB, List.map_map]
    have hfun : ((fun i => ((x :: xs).drop i).take B) ∘ (fun j => j + B)) =
        (fun i => (((x :: xs).drop B).drop i).take B) := by
      funext i
      simp only [Function.comp_apply, List.drop_drop, Nat.add_comm]
    rw [hfun]
    have hlb : (x :: xs).length - B = ((x :: xs).drop B).length := by
      rw [List.length_drop]
    rw [hlb, List.flatten_cons]
    have ih := sliceBatches_flatten B hB ((x :: xs).drop B)
    unfold sliceBatches at ih
    rw [ih, List.drop_zero, List.take_append_drop]
termination_by l.length
decreasing_by simp [List.length_drop]; omega

/-!  Calendar lemmas for `get_prev_workday`. -/

theorem predDate_weekday (d : Date) :
    (predDate d).weekday = (d.weekday + 6) % 7 := by
  by_cases h1 : 1 < d.day
  · simp [predDate, h1]
  · by_cases h2 : 1 < d.month
    · simp [predDate, h1, h2]
    · simp [predDate, h1, h2]

theorem predIter_weekday (n : Nat) : ∀ d : Date, d.weekday < 7 →
    (predIter n d).weekday = (d.weekday + 6 * n) % 7 := by
  induction n with
  | zero =>
    intro d hw
    simp only [predIter]
    omega
  | succ k ih =>
    intro d hw
    rw [predIter, ih (predDate d) (by rw [predDate_weekday]; omega),
      predDate_weekday]
    omega

theorem predIter_add (m n : Nat) (d : Date) :
    predIter m (predIter n d) = predIter (n + m) d := by
  induction n generalizing d with
  | zero => simp [predIter]
  | succ k ih =>
    rw [predIter, ih (predDate d), show k + 1 + m = k + m + 1 by omega,
      predIter]

theorem is_workday_false_weekend (d : Date) (h : 5 ≤ d.weekday) :
    is_workday d = false := by
  simp [is_workday, h]

theorem is_workday_true_of (d : Date) (hw : d.weekday < 5)
    (hh : (d.month, d.day) ∉ holidays) : is_workday d = true := by
  simp [is_workday, show ¬(5 ≤ d.weekday) by omega, hh]

theorem holiday_of_not_workday (d : Date) (hw : d.weekday < 5)
    (h : is_workday d = false) : (d.month, d.day) ∈ holidays := by
  by_contra hh
  rw [is_workday_true_of d hw hh] at h
  simp at h

/-- No two of the seven fixed holidays are within three calendar days of
each other, stepping backward. -/
theorem holiday_gap (d : Date) (h : (d.month, d.day) ∈ holidays) :
    ((predIter 1 d).month, (predIter 1 d).day) ∉ holidays ∧
    ((predIter 2 d).month, (predIter 2 d).day) ∉ holidays ∧
    ((predIter 3 d).month, (predIter 3 d).day) ∉ holidays := by
  simp only [holidays, List.mem_cons, List.not_mem_nil, or_false,
    Prod.mk.injEq] at h
  rcases h with ⟨hm, hd⟩ | ⟨hm, hd⟩ | ⟨hm, hd⟩ | ⟨hm, hd⟩ | ⟨hm, hd⟩ |
    ⟨hm, hd⟩ | ⟨hm, hd⟩ <;>
    refine ⟨?_, ?_, ?_⟩ <;>
    simp [predIter, predDate, daysInMonth, isLeap, hm, hd, holidays]

theorem daysInMonth_pos (y : Int) (m : Nat) : 1 ≤ daysInMonth y m := by
  unfold daysInMonth
  split
  · split <;> omega
  · split <;> omega

theorem predDate_lt (d : Date) : dateLt (predDate d) d := by
  unfold predDate dateLt
  by_cases hd : 1 < d.day
  · simp [hd]
    omega
  · by_cases hm : 1 < d.month
    · simp [hd, hm]
      omega
    · simp [hd, hm]

theorem dateLt_trans (a b c : Date) (h1 : dateLt a b) (h2 : dateLt b c) :
    dateLt a c := by
  unfold dateLt at h1 h2 ⊢
  omega

theorem predIter_lt : ∀ j : Nat, 1 ≤ j → ∀ d : Date,
    dateLt (predIter j d) d := by
  intro j
  induction j with
  | zero => intro h; exact absurd h (by omega)
  | succ k ih =>
    intro _ d
    rw [predIter]
    by_cases hk : 1 ≤ k
    · exact dateLt_trans _ _ _ (ih hk (predDate d)) (predDate_lt d)
    · have hk0 : k = 0 := by omega
      subst hk0
      simp only [predIter]
      exact predDate_lt d

/-- Auxiliary step: if among the first four predecessors there are two
non-weekend days at most three apart (all others below the second being
weekend days), one of the two is a workday and every predecessor before
it is not. -/
theorem found_pair (d : Date) (a b : Nat) (ha1 : 1 ≤ a) (hab : a < b)
    (hb4 : b ≤ 4) (hgap : b - a ≤ 3)
    (hwa : (predIter a d).weekday < 5) (hwb : (predIter b d).weekday < 5)
    (hween : ∀ i, 1 ≤ i → i < b → i ≠ a → 5 ≤ (predIter i d).weekday) :
    ∃ j, 1 ≤ j ∧ j ≤ 4 ∧ is_workday (predIter j d) = true ∧
      ∀ i, 1 ≤ i → i < j → is_workday (predIter i d) = false := by
  by_cases hwd : is_workday (predIter a d) = true
  · refine ⟨a, ha1, by omega, hwd, ?_⟩
    intro i hi1 hia
    exact is_workday_false_weekend _ (hween i hi1 (by omega) (by omega))
  · have hfa : is_workday (predIter a d) = false := by
      cases hx : is_workday (predIter a d)
      · rfl
      · exact absurd hx hwd
    have hhol : ((predIter a d).month, (predIter a d).day) ∈ holidays :=
      holiday_of_not_workday _ hwa hfa
    have hgap3 := holiday_gap (predIter a d) hhol
    have hcomp : ∀ k, predIter k (predIter a d) = predIter (a + k) d :=
      fun k => predIter_add k a d
    have hnb : ((predIter b d).month, (predIter b d).day) ∉ holidays := by
      have hba : b - a = 1 ∨ b - a = 2 ∨ b - a = 3 := by omega
      rcases hba with hx | hx | hx
      · rw [show b = a + 1 by omega, ← hcomp 1]
        exact hgap3.1
      · rw [show b = a + 2 by omega, ← hcomp 2]
        exact hgap3.2.1
      · rw [show b = a + 3 by omega, ← hcomp 3]
        exact hgap3.2.2
    refine ⟨b, by omega, hb4, is_workday_true_of _ hwb hnb, ?_⟩
    intro i hi1 hib
    by_cases hia : i = a
    · subst hia
      exact hfa
    · exact is_workday_false_weekend _ (hween i hi1 hib hia)

/-- Among the four predecessors of any valid date there is a workday, and
all predecessors before the first such workday are non-workdays. -/
theorem prev_workday_found (d : Date) (hv : ValidDate d) :
    ∃ j, 1 ≤ j ∧ j ≤ 4 ∧ is_workday (predIter j d) = true ∧
      ∀ i, 1 ≤ i → i < j → is_workday (predIter i d) = false := by
  have hw : d.weekday < 7 := hv.2.2.2.2
  have wk : ∀ n : Nat, (predIter n d).weekday = (d.weekday + 6 * n) % 7 :=
    fun n => predIter_weekday n d hw
  have h7 : d.weekday = 0 ∨ d.weekday = 1 ∨ d.weekday = 2 ∨ d.weekday = 3 ∨
      d.weekday = 4 ∨ d.weekday = 5 ∨ d.weekday = 6 := by omega
  rcases h7 with h | h | h | h | h | h | h
  · refine found_pair d 3 4 (by omega) (by omega) (by omega) (by omega)
      (by rw [wk 3]; omega) (by rw [wk 4]; omega) ?_
    intro i hi1 hib hia
    have hi : i = 1 ∨ i = 2 := by omega
    rcases hi with hi | hi <;> subst hi <;> rw [wk] <;> omega
  · refine found_pair d 1 4 (by omega) (by omega) (by omega) (by omega)
      (by rw [wk 1]; omega) (by rw [wk 4]; omega) ?_
    intro i hi1 hib hia
    have hi : i = 2 ∨ i = 3 := by omega
    rcases hi with hi | hi <;> subst hi <;> rw [wk] <;> omega
  · refine found_pair d 1 2 (by omega) (by omega) (by omega) (by omega)
      (by rw [wk 1]; omega) (by rw [wk 2]; omega) ?_
    intro i hi1 hib hia
    omega
  · refine found_pair d 1 2 (by omega) (by omega) (by omega) (by omega)
      (by rw [wk 1]; omega) (by rw [wk 2]; omega) ?_
    intro i hi1 hib hia
    omega
  · refine found_pair d 1 2 (by omega) (by omega) (by omega) (by omega)
      (by rw [wk 1]; omega) (by rw [wk 2]; omega) ?_
    intro i hi1 hib hia
    omega
  · refine found_pair d 1 2 (by omega) (by omega) (by omega) (by omega)
      (by rw [wk 1]; omega) (by rw [wk 2]; omega) ?_
    intro i hi1 hib hia
    omega
  · refine found_pair d 2 3 (by omega) (by omega) (by omega) (by omega)
      (by rw [wk 2]; omega) (by rw [wk 3]; omega) ?_
    intro i hi1 hib hia
    have hi : i = 1 := by omega
    subst hi
    rw [wk]
    omega

/-- The bounded loop returns exactly the first workday predecessor. -/
theorem get_prev_workday_eq (d : Date) (j : Nat) (h1 : 1 ≤ j) (h4 : j ≤ 4)
    (hw : is_workday (predIter j d) = true)
    (hmin : ∀ i, 1 ≤ i → i < j → is_workday (predIter i d) = false) :
    get_prev_workday d = predIter j d := by
  interval_cases j
  · have g1 : is_workday (predDate d) = true := hw
    simp [get_prev_workday, prevWorkdayAux, g1]
    rfl
  · have g1 : is_workday (predDate d) = false := hmin 1 (by omega) (by omega)
    have g2 : is_workday (predDate (predDate d)) = true := hw
    simp [get_prev_workday, prevWorkdayAux, g1, g2]
    rfl
  · have g1 : is_workday (predDate d) = false := hmin 1 (by omega) (by omega)
    have g2 : is_workday (predDate (predDate d)) = false :=
      hmin 2 (by omega) (by omega)
    have g3 : is_workday (predDate (predDate (predDate d))) = true := hw
    simp [get_prev_workday, prevWorkdayAux, g1, g2, g3]
    rfl
  · have g1 : is_workday (predDate d) = false := hmin 1 (by omega) (by omega)
    have g2 : is_workday (predDate (predDate d)) = false :=
      hmin 2 (by omega) (by omega)
    have g3 : is_workday (predDate (predDate (predDate d))) = false :=
      hmin 3 (by omega) (by omega)
    have g4 : is_workday (predDate (predDate (predDate (predDate d)))) = true :=
      hw
    simp [get_prev_workday, prevWorkdayAux, g1, g2, g3, g4]
    rfl

/-!  Claim theorems. -/

/-- C5: for every valid date `d`, `get_prev_workday d` terminates (the
loop exits within four steps), returns a date strictly earlier than `d`
on which `is_workday` holds, and skips no workday: it is the `j`-th
backward step for some `j ≥ 1` and every strictly intermediate day
(the `i`-th backward step for `1 ≤ i < j`) fails `is_workday`. -/
theorem prev_workday_correct (d : Date) (hv : ValidDate d) :
    ∃ j, 1 ≤ j ∧ get_prev_workday d = predIter j d ∧
      is_workday (get_prev_workday d) = true ∧
      dateLt (get_prev_workday d) d ∧
      ∀ i, 1 ≤ i → i < j → is_workday (predIter i d) = false := by
  obtain ⟨j, h1, h4, hw, hmin⟩ := prev_workday_found d hv
  have heq := get_prev_workday_eq d j h1 h4 hw hmin
  refine ⟨j, h1, heq, ?_, ?_, hmin⟩
  · rw [heq]
    exact hw
  · rw [heq]
    exact predIter_lt j h1 d

/-- Witness for C5 at Wednesday 2024-04-24 (its predecessor 04-23 is a
holiday, so the result is Monday 04-22, two steps back). -/
theorem prev_workday_correct_witness :
    ValidDate ⟨2024, 4, 24, 2⟩ ∧
    (∃ j, 1 ≤ j ∧
      get_prev_workday ⟨2024, 4, 24, 2⟩ = predIter j ⟨2024, 4, 24, 2⟩ ∧
      is_workday (get_prev_workday ⟨2024, 4, 24, 2⟩) = true ∧
      dateLt (get_prev_workday ⟨2024, 4, 24, 2⟩) ⟨2024, 4, 24, 2⟩ ∧
      ∀ i, 1 ≤ i → i < j →
        is_workday (predIter i ⟨2024, 4, 24, 2⟩) = false) :=
  ⟨by decide, prev_workday_correct ⟨2024, 4, 24, 2⟩ (by decide)⟩

/-- C1: the merge into the accumulating price map is additive.  When both
price lookups fail for code `C` (primary and fallback both yield
nothing), a pre-existing record for `C` is left unchanged and no record
for `C` appears if none existed; and no fund code is ever removed from
the map by the resolver loop. -/
theorem additive_merge_retains_records (now : String)
    (returns : String → Option DailyInfo) (prim : String → Option PrimaryResp)
    (fb : String → Option AnalyzeResp) (init : PriceMap) (codes : List String)
    (C : String) (hp : primaryFailed (prim C) = true)
    (hf : fallbackFailed (fb C) = true) :
    (∀ r, dictGet init C = some r →
      dictGet (runResolver now returns prim fb init codes).map C = some r) ∧
    (dictGet init C = none →
      dictGet (runResolver now returns prim fb init codes).map C = none) ∧
    (∀ K, (dictGet init K).isSome = true →
      (dictGet (runResolver now returns prim fb init codes).map K).isSome
        = true) := by
  have hC : (get_price now (prim C) (fb C) C).2.1 = none := by
    rw [get_price_of_primaryFailed now (prim C) (fb C) C hp,
      get_price_fallback_of_failed now (fb C) C hf]
  have hskip := runFold_skip now returns prim fb C hC codes
    { map := init, count := 0, writes := [] }
  refine ⟨?_, ?_, ?_⟩
  · intro r hr
    rw [runResolver, hskip]
    exact hr
  · intro hr
    rw [runResolver, hskip]
    exact hr
  · intro K hK
    exact runFold_isSome now returns prim fb codes
      { map := init, count := 0, writes := [] } K hK

/-- Witness for C1: with both lookups failing for "ZZZ", a pre-existing
record for "ZZZ" survives the run byte-for-byte. -/
theorem additive_merge_retains_records_witness :
    dictGet (runResolver "T" (fun _ => none) (fun _ => none) (fun _ => none)
        [("ZZZ", ⟨"ZZZ", 1, none, 0, "", "t0"⟩)] ["ZZZ", "AAA"]).map "ZZZ" =
      some ⟨"ZZZ", 1, none, 0, "", "t0"⟩ :=
  (additive_merge_retains_records "T" (fun _ => none) (fun _ => none)
    (fun _ => none) [("ZZZ", ⟨"ZZZ", 1, none, 0, "", "t0"⟩)] ["ZZZ", "AAA"]
    "ZZZ" rfl rfl).1 ⟨"ZZZ", 1, none, 0, "", "t0"⟩ (by decide)

/-- C2: for a non-empty accumulating map, `save_data` produces a snapshot
with `count == len(data)`, and every entry written by this run's resolver
loop has a `code` field equal to its key (pre-existing entries are
returned unchanged). -/
theorem snapshot_count_matches (now : String)
    (returns : String → Option DailyInfo) (prim : String → Option PrimaryResp)
    (fb : String → Option AnalyzeResp) (init : PriceMap) (codes : List String)
    (h : (runResolver now returns prim fb init codes).map ≠ []) :
    ∃ snap,
      save_data now (runResolver now returns prim fb init codes).map
        = some snap ∧
      snap.count = snap.data.length ∧
      ∀ c r, dictGet snap.data c = some r →
        dictGet init c = some r ∨ r.code = c := by
  have hne : (runResolver now returns prim fb init codes).map.isEmpty = false := by
    cases hm : (runResolver now returns prim fb init codes).map
    · exact absurd hm h
    · rfl
  refine ⟨⟨now, (runResolver now returns prim fb init codes).map.length,
    (runResolver now returns prim fb init codes).map⟩, ?_, rfl, ?_⟩
  · simp [save_data, hne]
  · intro c r hr
    exact runFold_code now returns prim fb codes
      { map := init, count := 0, writes := [] } c r hr

/-- Witness for C2 at a one-fund run with a successful primary lookup. -/
theorem snapshot_count_matches_witness :
    (runResolver "T" (fun _ => none)
        (fun _ => some { data := some [{ FIYAT := some 1, TARIH := some "d" }] })
        (fun _ => none) [] ["AAA"]).map ≠ [] ∧
    ∃ snap,
      save_data "T" (runResolver "T" (fun _ => none)
          (fun _ => some { data := some [{ FIYAT := some 1, TARIH := some "d" }] })
          (fun _ => none) [] ["AAA"]).map = some snap ∧
      snap.count = snap.data.length ∧
      ∀ c r, dictGet snap.data c = some r →
        dictGet [] c = some r ∨ r.code = c :=
  ⟨by decide,
   snapshot_count_matches "T" (fun _ => none)
     (fun _ => some { data := some [{ FIYAT := some 1, TARIH := some "d" }] })
     (fun _ => none) [] ["AAA"] (by decide)⟩

/-- C3: a directory fetch whose body fails to parse as JSON, or parses
without a `data` field, or with an empty `data` list, aborts the run
immediately: no file write, no store push, bare `return`. -/
theorem directory_failure_aborts (now : String)
    (prim : String → Option PrimaryResp) (fb : String → Option AnalyzeResp)
    (oldFile : Option PriceMap) (fbEnv : FirebaseEnv)
    (sbUrl sbKey : Option String) (sbRespond : Nat → Nat) (dir : DirResult)
    (h : dir = DirResult.decodeError ∨ dir = DirResult.parsed none ∨
      dir = DirResult.parsed (some [])) :
    fetch_all_funds now true dir prim fb oldFile fbEnv sbUrl sbKey sbRespond =
      { fileWrites := [], firebase := none, supabase := none,
        result := none } := by
  rcases h with h | h | h <;> subst h <;> rfl

/-- Witness for C3 at a JSON-decode failure. -/
theorem directory_failure_aborts_witness :
    fetch_all_funds "T" true DirResult.decodeError (fun _ => none)
      (fun _ => none) none { importOk := true, creds := none, opRaises := false }
      none none (fun _ => 0) =
      { fileWrites := [], firebase := none, supabase := none,
        result := none } :=
  directory_failure_aborts "T" (fun _ => none) (fun _ => none) none
    { importOk := true, creds := none, opRaises := false } none none
    (fun _ => 0) DirResult.decodeError (Or.inl rfl)

/-- C4: the two store pushes are independent.  With the document-store
credentials absent, `push_to_firebase` returns the logged-skip outcome
without error; the publisher still invokes the Supabase push, and the
Supabase invocation does not depend on the Firebase environment at all
(nor the Firebase invocation on the Supabase environment). -/
theorem store_pushes_independent (env : FirebaseEnv) (now : String)
    (final : ResolverState) (sbUrl sbKey : Option String) (resp : Nat → Nat)
    (himp : env.importOk = true) (hc : pyTruthyStr env.creds = false)
    (hmap : final.map ≠ []) :
    push_to_firebase env = FirebaseOutcome.skippedNoCreds ∧
    (finalizeRun now final env sbUrl sbKey resp).supabase.isSome = true ∧
    (∀ envA : FirebaseEnv,
      (finalizeRun now final envA sbUrl sbKey resp).supabase =
        (finalizeRun now final env sbUrl sbKey resp).supabase) ∧
    (∀ (uA kA : Option String) (rA : Nat → Nat),
      (finalizeRun now final env uA kA rA).firebase =
        some (push_to_firebase env)) := by
  have hne : final.map.isEmpty = false := by
    cases hm : final.map
    · exact absurd hm hmap
    · rfl
  refine ⟨by simp [push_to_firebase, himp, hc], ?_, ?_, ?_⟩
  · simp [finalizeRun, save_data, hne]
  · intro envA
    simp [finalizeRun, save_data, hne]
  · intro uA kA rA
    simp [finalizeRun, save_data, hne]

/-- Witness for C4: credentials absent, one-record final map. -/
theorem store_pushes_independent_witness :
    push_to_firebase { importOk := true, creds := none, opRaises := false } =
      FirebaseOutcome.skippedNoCreds ∧
    (finalizeRun "T"
        { map := [("A", ⟨"A", 1, none, 0, "", "T"⟩)], count := 1, writes := [] }
        { importOk := true, creds := none, opRaises := false } (some "u")
        (some "k") (fun _ => 500)).supabase.isSome = true :=
  ⟨(store_pushes_independent { importOk := true, creds := none, opRaises := false }
      "T" { map := [("A", ⟨"A", 1, none, 0, "", "T"⟩)], count := 1, writes := [] }
      (some "u") (some "k") (fun _ => 500) rfl rfl (by decide)).1,
   (store_pushes_independent { importOk := true, creds := none, opRaises := false }
      "T" { map := [("A", ⟨"A", 1, none, 0, "", "T"⟩)], count := 1, writes := [] }
      (some "u") (some "k") (fun _ => 500) rfl rfl (by decide)).2.1⟩

/-- C6: `get_price` is total (it is a function; no input raises).  When
the primary lookup fails and the fallback returns a non-empty `fundInfo`
list, the result is the first record's `SONFIYAT` with the current
wall-clock time as the date; when both fail, it is `(code, None, None)`. -/
theorem get_price_fallback_behavior (now : String)
    (primary : Option PrimaryResp) (fallback : Option AnalyzeResp)
    (code : String) (hp : primaryFailed primary = true) :
    (∀ info rest, fallback = some { fundInfo := some (info :: rest) } →
      get_price now primary fallback code = (code, info.SONFIYAT, some now)) ∧
    (fallbackFailed fallback = true →
      get_price now primary fallback code = (code, none, none)) := by
  constructor
  · intro info rest hfb
    rw [get_price_of_primaryFailed now primary fallback code hp, hfb]
    rfl
  · intro hf
    rw [get_price_of_primaryFailed now primary fallback code hp,
      get_price_fallback_of_failed now fallback code hf]

/-- Witness for C6: primary raised, fallback returns one `SONFIYAT`. -/
theorem get_price_fallback_behavior_witness :
    get_price "T" none
      (some { fundInfo := some [{ SONFIYAT := some (1146 / 100 : Rat) }] })
      "RTP" = ("RTP", some (1146 / 100 : Rat), some "T") :=
  (get_price_fallback_behavior "T" none
    (some { fundInfo := some [{ SONFIYAT := some (1146 / 100 : Rat) }] })
    "RTP" rfl).1 { SONFIYAT := some (1146 / 100 : Rat) } [] rfl

/-- C7: with credentials present, the Supabase push attempts every one of
the `ceil(N/500)` batches, whatever statuses the store answers (including
failing ones): the batch trace always has length `ceil(N/500)` and each
attempt carries the store's status for its slice. -/
theorem supabase_batches_independent (url key : Option String)
    (respond : Nat → Nat) (snap : Snapshot)
    (hu : pyTruthyStr url = true) (hk : pyTruthyStr key = true) :
    ∃ trace, push_to_supabase url key respond snap = SupabaseOutcome.ran trace ∧
      trace.length = ((buildRows snap.data).length + 499) / 500 ∧
      ∀ a ∈ trace, a.status = respond a.start := by
  simp only [push_to_supabase, hu, hk, Bool.not_true, Bool.or_self,
    Bool.false_eq_true, if_false]
  refine ⟨_, rfl, ?_, ?_⟩
  · rw [List.length_map,
      pyRange_length 500 (buildRows snap.data).length 0 (by omega),
      Nat.sub_zero]
    have e : (buildRows snap.data).length + 500 - 1 =
        (buildRows snap.data).length + 499 := by omega
    rw [e]
  · intro a ha
    rw [List.mem_map] at ha
    obtain ⟨i, _, hi⟩ := ha
    rw [← hi]

/-- Witness for C7: one batch, store answers 500 (a failure status). -/
theorem supabase_batches_independent_witness :
    ∃ trace, push_to_supabase (some "u") (some "k") (fun _ => 500)
        { lastUpdated := "T", count := 1,
          data := [("A", ⟨"A", 1, none, 0, "", "T"⟩)] } =
        SupabaseOutcome.ran trace ∧
      trace.length =
        ((buildRows [("A", ⟨"A", 1, none, 0, "", "T"⟩)]).length + 499) / 500 ∧
      ∀ a ∈ trace, a.status = (fun _ : Nat => 500) a.start :=
  supabase_batches_independent (some "u") (some "k") (fun _ => 500)
    { lastUpdated := "T", count := 1,
      data := [("A", ⟨"A", 1, none, 0, "", "T"⟩)] } (by decide) (by decide)

/-- C8: the batch-splitting loop over `records[i:i+500]` for
`i in range(0, N, 500)` yields exactly `ceil(N/500)` slices, and
concatenating the slices in loop order restores the record list. -/
theorem batch_split_exact {α : Type} (records : List α) :
    (sliceBatches records 500).length = (records.length + 499) / 500 ∧
    (sliceBatches records 500).flatten = records := by
  constructor
  · rw [sliceBatches_length records 500 (by omega)]
    have e : records.length + 500 - 1 = records.length + 499 := by omega
    rw [e]
  · exact sliceBatches_flatten 500 (by omega) records

/-- C9: a falsy resolved price — `None`, but also an actual `0` price
returned by the upstream API — is treated exactly like a failed lookup:
the merge step neither creates nor updates the fund's entry. -/
theorem falsy_price_skipped (now : String)
    (returns : String → Option DailyInfo) (prim : String → Option PrimaryResp)
    (fb : String → Option AnalyzeResp) (m : PriceMap) (s : ResolverState)
    (code : String) (date t : Option String) (rest : List PrimaryRecord)
    (hprim : prim code =
      some { data := some ({ FIYAT := some 0, TARIH := t } :: rest) }) :
    mergeStep now returns m code none date = m ∧
    mergeStep now returns m code (some 0) date = m ∧
    (get_price now (prim code) (fb code) code).2.1 = some 0 ∧
    (resolverStep now returns prim fb s code).map = s.map := by
  have hgp : get_price now (prim code) (fb code) code = (code, some 0, t) := by
    rw [hprim]
    rfl
  refine ⟨rfl, mergeStep_zero now returns m code date, ?_, ?_⟩
  · rw [hgp]
  · rw [resolverStep_map, hgp]
    exact mergeStep_zero now returns s.map code t

/-- Witness for C9: the API answers price `0`; the map stays empty. -/
theorem falsy_price_skipped_witness :
    (resolverStep "T" (fun _ => none)
        (fun _ => some { data := some [{ FIYAT := some 0, TARIH := some "d" }] })
        (fun _ => none) { map := [], count := 0, writes := [] } "AAA").map
      = [] :=
  (falsy_price_skipped "T" (fun _ => none)
    (fun _ => some { data := some [{ FIYAT := some 0, TARIH := some "d" }] })
    (fun _ => none) [] { map := [], count := 0, writes := [] } "AAA" none
    (some "d") [] rfl).2.2.2

/-- C10: when the accumulating map is empty at save time, `save_data`
returns `None` without writing; on the cleanup path no checkpoint was
written either, neither store push is invoked, and `fetch_all_funds`
returns `False`. -/
theorem empty_map_cleanup (now : String) (prim : String → Option PrimaryResp)
    (fb : String → Option AnalyzeResp) (oldFile : Option PriceMap)
    (fbEnv : FirebaseEnv) (sbUrl sbKey : Option String) (sbRespond : Nat → Nat)
    (e : DirEntry) (es : List DirEntry)
    (h : (runResolver now (dictGet (buildReturns (e :: es))) prim fb
        (oldFile.getD []) ((e :: es).map DirEntry.FONKODU)).map = []) :
    save_data now (runResolver now (dictGet (buildReturns (e :: es))) prim fb
        (oldFile.getD []) ((e :: es).map DirEntry.FONKODU)).map = none ∧
    fetch_all_funds now true (DirResult.parsed (some (e :: es))) prim fb
        oldFile fbEnv sbUrl sbKey sbRespond =
      { fileWrites := [], firebase := none, supabase := none,
        result := some false } := by
  have hsd : save_data now (runResolver now (dictGet (buildReturns (e :: es)))
      prim fb (oldFile.getD []) ((e :: es).map DirEntry.FONKODU)).map = none := by
    rw [h]
    rfl
  refine ⟨hsd, ?_⟩
  have hw2 : (runResolver now (dictGet (buildReturns (e :: es))) prim fb
      (oldFile.getD []) ((e :: es).map DirEntry.FONKODU)).writes = [] :=
    (runFold_nil_writes now (dictGet (buildReturns (e :: es))) prim fb
      ((e :: es).map DirEntry.FONKODU)
      { map := oldFile.getD [], count := 0, writes := [] } h).2
  show finalizeRun now (runResolver now (dictGet (buildReturns (e :: es)))
      prim fb (oldFile.getD []) ((e :: es).map DirEntry.FONKODU)) fbEnv sbUrl
      sbKey sbRespond = _
  simp only [finalizeRun, hsd, hw2]

/-- Witness for C10: a one-fund directory with both lookups failing. -/
theorem empty_map_cleanup_witness :
    fetch_all_funds "T" true
      (DirResult.parsed
        (some [{ FONKODU := "ZZZ", GETIRIORANI := none, FONUNVAN := none }]))
      (fun _ => none) (fun _ => none) none
      { importOk := true, creds := none, opRaises := false } none none
      (fun _ => 0) =
      { fileWrites := [], firebase := none, supabase := none,
        result := some false } :=
  (empty_map_cleanup "T" (fun _ => none) (fun _ => none) none
    { importOk := true, creds := none, opRaises := false } none none
    (fun _ => 0) { FONKODU := "ZZZ", GETIRIORANI := none, FONUNVAN := none }
    [] (by decide)).2

end Tefas
